import Mathlib

/-!
Verification of the office chat "create" command handler
(`packages/vscode-extension/src/officeChat/commands/create/officeCreateCommandHandler.ts`)
and of the BM25-based project matcher it drives.

The handler file itself is embedded from the source.  The pieces of the
repository it imports that are not part of the provided sources (the BM25
ranking engine from `officeChat/retrievalUtil/BM25.ts`, the tokenizer
`prepareDiscription` from `officeChat/retrievalUtil/retrievalUtil.ts`, the
constant enums, and the external catalogs) are modelled from the
specification; each such definition carries a doc comment saying so.

Conventions of the embedding:
* TypeScript numbers (the BM25 scores) are modelled as rationals `ℚ`.
* JavaScript `string.toLowerCase()` is modelled on the basic latin range
  (`lowerChar` below); this suffices for every property proved here.
* Async host calls (chat completions, telemetry, the response stream) are
  modelled as explicit parameters and as an event trace.
-/

/-- Lower-case one character, basic latin range only.  This is the model of
JavaScript `String.prototype.toLowerCase` applied character-wise: code points
65–90 (`A`–`Z`) are shifted by 32, everything else is unchanged. -/
def lowerChar (c : Char) : Char :=
  if 65 ≤ c.toNat ∧ c.toNat ≤ 90 then Char.ofNat (c.toNat + 32) else c

/-- Model of JavaScript `s.toLowerCase()`: lower-case every character. -/
def toLowerStr (s : String) : String :=
  String.mk (s.data.map lowerChar)

/-- Does the character lie in the ASCII upper-case range `A`–`Z`? -/
def isAsciiUpper (c : Char) : Bool :=
  decide (65 ≤ c.toNat) && decide (c.toNat ≤ 90)

/-- A string is fully lower-cased when it contains no ASCII upper-case
character. -/
def lowerOk (s : String) : Bool :=
  s.data.all (fun c => !(isAsciiUpper c))

/-- Accumulator-based splitter: cut a character list at spaces, dropping empty
tokens (so whitespace runs collapse).  `acc` holds the current token in
reverse. -/
def splitWordsAux : List Char → List Char → List String
  | [], acc => if acc.isEmpty then [] else [String.mk acc.reverse]
  | c :: cs, acc =>
    if c = ' ' then
      (if acc.isEmpty then [] else [String.mk acc.reverse]) ++ splitWordsAux cs []
    else splitWordsAux cs (c :: acc)

/-- Split a string into its space-separated words, dropping empty tokens. -/
def splitWords (s : String) : List String :=
  splitWordsAux s.data []

/-- Modelled from the spec: the fixed stop-word set of the tokenizer
(`officeChat/retrievalUtil/retrievalUtil.ts` is not among the provided
sources).  The spec only requires "a fixed stop-word set"; this list fixes
one. -/
def stopWordsSet : List String :=
  ["a", "an", "the", "and", "or", "of", "to", "in", "on", "for",
   "with", "is", "are", "be", "that", "this", "it", "as", "at", "by"]

/-- Modelled from the spec: a character counts as punctuation when it is
neither an ASCII letter, nor a digit, nor a space. -/
def isPunctChar (c : Char) : Bool :=
  !(decide (97 ≤ c.toNat) && decide (c.toNat ≤ 122)
    || decide (65 ≤ c.toNat) && decide (c.toNat ≤ 90)
    || decide (48 ≤ c.toNat) && decide (c.toNat ≤ 57)
    || decide (c = ' '))

/-- Modelled from the spec: the tokenizer `prepareDiscription`
(`officeChat/retrievalUtil/retrievalUtil.ts` is not among the provided
sources).  Normalization per the spec: lower-case all characters, strip
punctuation, collapse whitespace runs, remove the fixed stop-word set. -/
def prepareDiscription (s : String) : List String :=
  let lowered := toLowerStr s
  let cleaned := String.mk (lowered.data.map (fun c => if isPunctChar c then ' ' else c))
  (splitWords cleaned).filter (fun t => !(stopWordsSet.contains t))

/-- A corpus document: an opaque text body paired with arbitrary metadata
(`DocumentWithmetadata` of `officeChat/retrievalUtil/BM25.ts`). -/
structure DocumentWithmetadata (α : Type) where
  documentText : String
  metadata : α
deriving DecidableEq

/-- A scored match returned by a search (`BMDocument` of
`officeChat/retrievalUtil/BM25.ts`): a document paired with its relevance
score. -/
structure BMDocument (α : Type) where
  document : DocumentWithmetadata α
  score : ℚ
deriving DecidableEq

/-- Descending-score comparison used to order search results. -/
def BMDocument.scoreGe {α : Type} (a b : BMDocument α) : Prop :=
  b.score ≤ a.score

instance {α : Type} : DecidableRel (@BMDocument.scoreGe α) :=
  fun a b => inferInstanceAs (Decidable (b.score ≤ a.score))

instance {α : Type} : IsTotal (BMDocument α) BMDocument.scoreGe :=
  ⟨fun a b => le_total b.score a.score⟩

instance {α : Type} : IsTrans (BMDocument α) BMDocument.scoreGe :=
  ⟨fun _ _ _ hab hbc => le_trans hbc hab⟩

/-- Modelled from the spec: the BM25 saturation parameter, fixed at the
conventional default k1 = 1.5. -/
def bm25K1 : ℚ := 3 / 2

/-- Modelled from the spec: the BM25 length-normalization parameter, fixed at
the conventional default b = 0.75. -/
def bm25B : ℚ := 3 / 4

/-- Modelled from the spec: the BM25 ranking engine
(`officeChat/retrievalUtil/BM25.ts` is not among the provided sources).  The
engine is constructed from the full corpus, an ordered list of documents; all
corpus statistics below are derived from this list. -/
structure BM25 (α : Type) where
  documents : List (DocumentWithmetadata α)

/-- Terms of a document: its text split at spaces.  The corpus texts are built
by joining prepared term lists with single spaces, so splitting at spaces
recovers the terms. -/
def docTerms {α : Type} (d : DocumentWithmetadata α) : List String :=
  splitWords d.documentText

/-- Total document count N of the corpus. -/
def BM25.n {α : Type} (e : BM25 α) : ℕ :=
  e.documents.length

/-- Document frequency of a term: the number of corpus documents containing it
at least once. -/
def BM25.df {α : Type} (e : BM25 α) (t : String) : ℕ :=
  e.documents.countP (fun d => (docTerms d).contains t)

/-- Average document length (in terms) across the corpus. -/
def BM25.avgdl {α : Type} (e : BM25 α) : ℚ :=
  (e.documents.map (fun d => (((docTerms d).length : ℕ) : ℚ))).sum / (e.n : ℚ)

/-- Modelled from the spec: the inverse-document-frequency weight.  The spec
prescribes "the inverse-document-frequency weight" without pinning the exact
formula; to keep scores exactly computable this model uses the rational
weight (N - df + 1/2) / (df + 1/2) + 1, which like the usual logarithmic
weight is strictly positive and antitone in the document frequency. -/
def BM25.idf {α : Type} (e : BM25 α) (t : String) : ℚ :=
  ((e.n : ℚ) - (e.df t : ℚ) + 1 / 2) / ((e.df t : ℚ) + 1 / 2) + 1

/-- Modelled from the spec: the BM25 contribution of one query term to one
document: the idf weight times the saturating term-frequency weight,
normalized by document length relative to the corpus average. -/
def BM25.termScore {α : Type} (e : BM25 α) (d : DocumentWithmetadata α) (t : String) : ℚ :=
  let tf : ℚ := (((docTerms d).count t : ℕ) : ℚ)
  let dl : ℚ := (((docTerms d).length : ℕ) : ℚ)
  e.idf t * (tf * (bm25K1 + 1)) / (tf + bm25K1 * (1 - bm25B + bm25B * (dl / e.avgdl)))

/-- BM25 score of a document against a query: the sum of the per-term
contributions over the query term sequence. -/
def BM25.scoreOf {α : Type} (e : BM25 α) (q : List String) (d : DocumentWithmetadata α) : ℚ :=
  (q.map (e.termScore d)).sum

/-- Every corpus document paired with its score, in corpus insertion order. -/
def BM25.scoredDocs {α : Type} (e : BM25 α) (q : List String) : List (BMDocument α) :=
  e.documents.map (fun d => ⟨d, e.scoreOf q d⟩)

/-- The scored documents with strictly positive score, still in corpus
insertion order (documents with no overlapping term score 0 and drop out). -/
def BM25.positiveScored {α : Type} (e : BM25 α) (q : List String) : List (BMDocument α) :=
  (e.scoredDocs q).filter (fun bd => decide (0 < bd.score))

/-- Modelled from the spec: `search`.  Keep the strictly positive scores, sort
them descending by score with a stable sort, and return the first
`maxResults` entries. -/
def BM25.search {α : Type} (e : BM25 α) (q : List String) (maxResults : ℕ) :
    List (BMDocument α) :=
  (List.insertionSort BMDocument.scoreGe (e.positiveScored q)).take maxResults

/-- Modelled from the spec: the template `data` payload built by
`getOfficeTemplateMetadata` (field names in the source are JSON-style:
`capabilities`, `project-type`, `addin-host`, `agent`,
`programming-language`). -/
structure ProjectData where
  capabilities : String
  projectType : String
  addinHost : String
  agent : String
  programmingLanguage : String
deriving DecidableEq

/-- Modelled from the spec: `ProjectMetadata` of
`chat/commands/create/types.ts` (not among the provided sources), with the
fields the handler uses.  Sample entries carry no `data` payload. -/
structure ProjectMetadata where
  id : String
  type : String
  platform : String
  name : String
  description : String
  data : Option ProjectData
deriving DecidableEq

/-- Modelled from the spec: one entry of the local template catalog
`officeTemplateMetadata.json` (not among the provided sources), with the
fields `getOfficeTemplateMetadata` reads (`id`, `name`, `description`,
`project-type`, `addin-host`). -/
structure TemplateConfig where
  id : String
  name : String
  description : String
  projectType : String
  addinHost : String
deriving DecidableEq

/-- Modelled from the spec: one sample of the external sample provider, with
the fields `getOfficeSampleMetadata` reads (`id`, `types`, `title`,
`fullDescription`). -/
structure SampleConfig where
  id : String
  types : List String
  title : String
  fullDescription : String
deriving DecidableEq

/-- The metadata built for one local template entry: type `template`,
platform `WXP`, and a `data` payload whose `capabilities` is the entry id,
whose `agent` is `office` and whose programming language is `typescript`. -/
def officeTemplateToMetadata (config : TemplateConfig) : ProjectMetadata :=
  ⟨config.id, "template", "WXP", config.name, config.description,
    some ⟨config.id, config.projectType, config.addinHost, "office", "typescript"⟩⟩

/-- Embeds `getOfficeTemplateMetadata`: map the local template catalog to
project metadata. -/
def getOfficeTemplateMetadata (templates : List TemplateConfig) : List ProjectMetadata :=
  templates.map officeTemplateToMetadata

/-- The Word/Excel/Powerpoint filter of `getOfficeSampleMetadata`. -/
def isWXPSample (sample : SampleConfig) : Bool :=
  sample.types.contains "Word" || sample.types.contains "Excel"
    || sample.types.contains "Powerpoint"

/-- The metadata built for one sample entry: type `sample`, platform `WXP`,
no `data` payload. -/
def officeSampleToMetadata (sample : SampleConfig) : ProjectMetadata :=
  ⟨sample.id, "sample", "WXP", sample.title, sample.fullDescription, none⟩

/-- Embeds `getOfficeSampleMetadata`: the source loops over the sample
collection and pushes an entry for each sample passing the
Word/Excel/Powerpoint filter; the loop is embedded as a left fold. -/
def getOfficeSampleMetadata (samples : List SampleConfig) : List ProjectMetadata :=
  samples.foldl
    (fun result sample =>
      if isWXPSample sample then result ++ [officeSampleToMetadata sample] else result)
    []

/-- Embeds the combined catalog `allOfficeProjectMetadata`: all local template
entries followed by all filtered sample entries. -/
def allOfficeProjectMetadata (templates : List TemplateConfig) (samples : List SampleConfig) :
    List ProjectMetadata :=
  getOfficeTemplateMetadata templates ++ getOfficeSampleMetadata samples

/-- The string `matchOfficeProjectByBM25` hands to the tokenizer for one
catalog entry: the entry description, fully lower-cased
(`sample.description.toLowerCase()`). -/
def officeDocumentInput (m : ProjectMetadata) : String :=
  toLowerStr m.description

/-- The string `matchOfficeProjectByBM25` hands to the tokenizer for the
query: the request prompt, fully lower-cased (`request.prompt.toLowerCase()`). -/
def officeQueryInput (prompt : String) : String :=
  toLowerStr prompt

/-- Embeds the corpus construction of `matchOfficeProjectByBM25`: one document
per combined-catalog entry, whose text is the prepared description joined
with single spaces and whose metadata is the entry itself. -/
def officeDocuments (templates : List TemplateConfig) (samples : List SampleConfig) :
    List (DocumentWithmetadata ProjectMetadata) :=
  (allOfficeProjectMetadata templates samples).map
    (fun sample =>
      ⟨String.intercalate " " (prepareDiscription (officeDocumentInput sample)), sample⟩)

/-- Embeds the query construction of `matchOfficeProjectByBM25`: the prepared
lower-cased prompt. -/
def officeQuery (prompt : String) : List String :=
  prepareDiscription (officeQueryInput prompt)

/-- The BM25 engine `matchOfficeProjectByBM25` constructs over the combined
catalog. -/
def officeBM25 (templates : List TemplateConfig) (samples : List SampleConfig) :
    BM25 ProjectMetadata :=
  ⟨officeDocuments templates samples⟩

/-- Embeds `matchOfficeProjectByBM25`: search with `maxResults = 3`, then
accept exactly when the result list has length one and that single result
scores above 1. -/
def matchOfficeProjectByBM25 (templates : List TemplateConfig) (samples : List SampleConfig)
    (prompt : String) : Option ProjectMetadata :=
  let matchedDocuments := (officeBM25 templates samples).search (officeQuery prompt) 3
  match matchedDocuments with
  | [bd] => if 1 < bd.score then some bd.document.metadata else none
  | _ => none

/-- Embeds the id extraction of `matchOfficeProject`.  The chat response is a
string; an empty string is falsy, so no parse is attempted.  The JavaScript
`JSON.parse` plus the truthiness checks on the parsed object and its `addin`
field are abstracted into `parseAddin : String → Option String`, which
returns the `addin` id exactly when the response parses to a truthy object
with a truthy `addin` field and `none` in every other case (parse errors are
swallowed by the source's empty catch block). -/
def matchedProjectId (parseAddin : String → Option String) (response : String) :
    Option String :=
  if response = "" then none else parseAddin response

/-- Embeds the selection step of `matchOfficeProject`: find the first combined
catalog entry whose id equals the parsed id (a strict equality against an
absent id never holds), returning it, or `undefined` when there is none. -/
def matchOfficeProject (parseAddin : String → Option String) (templates : List TemplateConfig)
    (samples : List SampleConfig) (response : String) : Option ProjectMetadata :=
  (allOfficeProjectMetadata templates samples).find?
    (fun config => decide (matchedProjectId parseAddin response = some config.id))

/-- Modelled from the spec: the `OfficeChatCommand` enum of
`officeChat/consts.ts` (not among the provided sources). -/
inductive OfficeChatCommand
  | Create
  | GenerateCode
  | NextStep
deriving DecidableEq

/-- One observable action of the command handler: a telemetry send, the
project-matching call, a chat interaction, or a response-stream rendering
(markdown, file tree, button), or the hand-off to the planner. -/
inductive ChatEvent
  | telemetry (name : String)
  | matchProject
  | copilotInteraction (model : String)
  | markdown (text : String)
  | fileTree
  | button (title : String)
  | plannerProcess
deriving DecidableEq

/-- Response-stream renderings among the handler events: markdown, file trees
and buttons are what the user-visible chat response consists of. -/
def isStreamEvent : ChatEvent → Bool
  | ChatEvent.markdown _ => true
  | ChatEvent.fileTree => true
  | ChatEvent.button _ => true
  | _ => false

/-- Result metadata of a chat handler run (`ICopilotChatResult.metadata`). -/
structure ChatResultMetadata where
  command : OfficeChatCommand
  requestId : String
deriving DecidableEq

/-- Chat handler result (`ICopilotChatResult`). -/
structure CopilotChatResult where
  metadata : ChatResultMetadata
deriving DecidableEq

/-- A handler run: the ordered trace of observable actions and the returned
result. -/
structure HandlerRun where
  events : List ChatEvent
  result : CopilotChatResult
deriving DecidableEq

/-- Localization key of the harmful-input message. -/
def harmfulResponseKey : String :=
  "teamstoolkit.chatParticipants.officeAddIn.harmfulInputResponse"

/-- Localization key of the sample button title. -/
def sampleTitleKey : String :=
  "teamstoolkit.chatParticipants.create.sample"

/-- Localization key of the template button title. -/
def templateTitleKey : String :=
  "teamstoolkit.chatParticipants.create.template"

/-- The literal markdown emitted on the template path. -/
def templateFoundMessage : String :=
  "\nWe've found a template project that matches your description. Take a look at it below."

/-- Embeds `officeCreateCommandHandler` as a trace-producing function.  The
host oracles are parameters: `loc` is the localization table, `isHarmful`
the verdict of `isInputHarmful`, `matched` the outcome of
`matchOfficeProject`, and `plannerResult` what the planner would return.
Control flow follows the source: the start telemetry event is always sent;
a harmful request only renders the localized harmful-input markdown; a
non-harmful request runs the matcher and either describes the match (with
file tree and button for sample or template types) or returns early through
the planner, skipping the final telemetry event. -/
def officeCreateCommandHandler (loc : String → String) (isHarmful : Bool)
    (matched : Option ProjectMetadata) (plannerResult : CopilotChatResult)
    (requestId : String) : HandlerRun :=
  let start := [ChatEvent.telemetry "CopilotChatStart"]
  let finish := fun (evs : List ChatEvent) =>
    HandlerRun.mk (evs ++ [ChatEvent.telemetry "CopilotChat"])
      ⟨⟨OfficeChatCommand.Create, requestId⟩⟩
  if isHarmful then
    finish (start ++ [ChatEvent.markdown (loc harmfulResponseKey)])
  else
    match matched with
    | some m =>
      let evs := start ++
        [ChatEvent.matchProject, ChatEvent.copilotInteraction "copilot-gpt-3.5-turbo"]
      if m.type = "sample" then
        finish (evs ++ [ChatEvent.fileTree, ChatEvent.button (loc sampleTitleKey)])
      else if m.type = "template" then
        finish (evs ++ [ChatEvent.markdown templateFoundMessage, ChatEvent.fileTree,
          ChatEvent.button (loc templateTitleKey)])
      else
        finish evs
    | none =>
      HandlerRun.mk (start ++ [ChatEvent.matchProject, ChatEvent.plannerProcess]) plannerResult


/-- Concrete template catalog entry used for counterexamples and witnesses. -/
def cexTemplateA : TemplateConfig :=
  ⟨"excel-hello", "Hello Excel", "excel", "taskpane", "excel"⟩

/-- Second concrete template catalog entry, with a longer description sharing
the term `excel`, so that it scores positively but at most 1. -/
def cexTemplateB : TemplateConfig :=
  ⟨"excel-report", "Excel Report", "excel word powerpoint chart", "taskpane", "excel"⟩

/-- Concrete sample catalog entry passing the Word/Excel/Powerpoint filter. -/
def witSample : SampleConfig :=
  ⟨"word-sample", ["Word"], "Word Sample", "manipulate paragraph styles"⟩

/-- Concrete sample catalog entry failing the Word/Excel/Powerpoint filter. -/
def witSampleOther : SampleConfig :=
  ⟨"teams-sample", ["Teams"], "Teams Sample", "a bot project"⟩

/-- Helper: `lowerChar` on an upper-case basic latin character shifts its code
point by 32. -/
theorem lowerChar_toNat_of_upper (c : Char) (h1 : 65 ≤ c.toNat) (h2 : c.toNat ≤ 90) :
    (lowerChar c).toNat = c.toNat + 32 := by
  simp only [lowerChar, if_pos (And.intro h1 h2)]
  generalize c.toNat = n at h1 h2 ⊢
  interval_cases n <;> decide

/-- Helper: the output of `lowerChar` is never an ASCII upper-case character. -/
theorem lowerChar_not_upper (c : Char) : isAsciiUpper (lowerChar c) = false := by
  by_cases h : 65 ≤ c.toNat ∧ c.toNat ≤ 90
  · have ht := lowerChar_toNat_of_upper c h.1 h.2
    simp only [isAsciiUpper, ht, Bool.and_eq_false_iff, decide_eq_false_iff_not]
    right
    omega
  · simp only [lowerChar, if_neg h]
    simp only [isAsciiUpper, Bool.and_eq_false_iff, decide_eq_false_iff_not]
    omega

/-- Helper: `lowerChar` fixes characters that are not ASCII upper case. -/
theorem lowerChar_of_not_upper (c : Char) (h : isAsciiUpper c = false) : lowerChar c = c := by
  simp only [isAsciiUpper, Bool.and_eq_false_iff, decide_eq_false_iff_not] at h
  simp only [lowerChar, if_neg (by omega : ¬(65 ≤ c.toNat ∧ c.toNat ≤ 90))]

/-- Helper: `lowerChar` is idempotent. -/
theorem lowerChar_idem (c : Char) : lowerChar (lowerChar c) = lowerChar c :=
  lowerChar_of_not_upper _ (lowerChar_not_upper c)

/-- Helper: `toLowerStr` is idempotent. -/
theorem toLowerStr_idem (s : String) : toLowerStr (toLowerStr s) = toLowerStr s := by
  simp only [toLowerStr, List.map_map]
  congr 1
  exact List.map_congr_left (fun c _ => lowerChar_idem c)

/-- Helper: lower-cased strings contain no ASCII upper-case character. -/
theorem lowerOk_toLowerStr (s : String) : lowerOk (toLowerStr s) = true := by
  simp only [lowerOk, toLowerStr, List.all_eq_true, List.mem_map]
  rintro c ⟨c0, _, rfl⟩
  simp [lowerChar_not_upper c0]

/-- Helper: every scored document records the score of its own document. -/
theorem scoredDocs_score {α : Type} (e : BM25 α) (q : List String) :
    ∀ bd ∈ e.scoredDocs q, bd.score = e.scoreOf q bd.document := by
  intro bd hbd
  simp only [BM25.scoredDocs, List.mem_map] at hbd
  obtain ⟨d, _, rfl⟩ := hbd
  rfl

/-- Helper: membership in the positively scored list. -/
theorem mem_positiveScored {α : Type} (e : BM25 α) (q : List String) :
    ∀ bd ∈ e.positiveScored q, bd ∈ e.scoredDocs q ∧ 0 < bd.score := by
  intro bd hbd
  simp only [BM25.positiveScored, List.mem_filter, decide_eq_true_eq] at hbd
  exact hbd

/-- Helper: search results come from the positively scored list. -/
theorem mem_search {α : Type} (e : BM25 α) (q : List String) (k : ℕ) :
    ∀ bd ∈ e.search q k, bd ∈ e.positiveScored q := by
  intro bd hbd
  exact (List.perm_insertionSort BMDocument.scoreGe (e.positiveScored q)).subset
    (List.take_subset _ _ hbd)

/-- Helper: a document whose term list misses every query term scores 0. -/
theorem scoreOf_eq_zero {α : Type} (e : BM25 α) (q : List String) (d : DocumentWithmetadata α)
    (h : ∀ t ∈ q, (docTerms d).count t = 0) : e.scoreOf q d = 0 := by
  apply List.sum_eq_zero
  intro x hx
  simp only [List.mem_map] at hx
  obtain ⟨t, ht, rfl⟩ := hx
  simp [BM25.termScore, h t ht]

/-- Helper: ordered insertion is stable for the score-equality fibers: the
elements scoring exactly `c` of `orderedInsert x l` are those of `l`, with
`x` put in front when it scores `c` itself (the insertion point is after all
strictly larger scores). -/
theorem filter_score_orderedInsert {α : Type} (c : ℚ) (x : BMDocument α) :
    ∀ l : List (BMDocument α),
      (List.orderedInsert BMDocument.scoreGe x l).filter (fun bd => decide (bd.score = c)) =
        if x.score = c then
          x :: l.filter (fun bd => decide (bd.score = c))
        else
          l.filter (fun bd => decide (bd.score = c))
  | [] => by
    by_cases hx : x.score = c <;> simp [hx]
  | y :: ys => by
    simp only [List.orderedInsert]
    by_cases hr : BMDocument.scoreGe x y
    · rw [if_pos hr]
      by_cases hx : x.score = c <;> simp [hx]
    · rw [if_neg hr]
      have hy : ¬(y.score = c) ∨ ¬(x.score = c) := by
        by_cases hx : x.score = c
        · left
          intro hyc
          exact hr (le_of_eq (hyc.trans hx.symm))
        · right
          exact hx
      rw [List.filter_cons, List.filter_cons, filter_score_orderedInsert c x ys]
      by_cases hx : x.score = c <;> by_cases hyc : y.score = c <;> simp_all

/-- Helper: insertion sort is stable on the score-equality fibers: sorting
permutes nothing within one fiber. -/
theorem filter_score_insertionSort {α : Type} (c : ℚ) :
    ∀ l : List (BMDocument α),
      (List.insertionSort BMDocument.scoreGe l).filter (fun bd => decide (bd.score = c)) =
        l.filter (fun bd => decide (bd.score = c))
  | [] => rfl
  | x :: xs => by
    simp only [List.insertionSort]
    rw [filter_score_orderedInsert c x (List.insertionSort BMDocument.scoreGe xs),
      filter_score_insertionSort c xs, List.filter_cons]
    by_cases hx : x.score = c <;> simp [hx]

/-- Helper: filtering a prefix and the matching suffix recovers the filtered
whole list. -/
theorem filter_take_append {β : Type} (p : β → Bool) (l : List β) (k : ℕ) :
    (l.take k).filter p ++ (l.drop k).filter p = l.filter p := by
  rw [← List.filter_append, List.take_append_drop]

/-- Helper: the sample loop with an arbitrary accumulator equals the
accumulator followed by the filtered, mapped samples. -/
theorem sampleFold_eq (init : List ProjectMetadata) :
    ∀ samples : List SampleConfig,
      samples.foldl
          (fun result sample =>
            if isWXPSample sample then result ++ [officeSampleToMetadata sample] else result)
          init =
        init ++ (samples.filter isWXPSample).map officeSampleToMetadata
  | [] => by simp
  | sample :: rest => by
    simp only [List.foldl_cons, List.filter_cons]
    by_cases hs : isWXPSample sample
    · rw [if_pos hs, sampleFold_eq (init ++ [officeSampleToMetadata sample]) rest]
      simp [hs]
    · rw [if_neg hs, sampleFold_eq init rest]
      simp [hs]

/-- Helper: `getOfficeSampleMetadata` keeps exactly the samples passing the
Word/Excel/Powerpoint filter, in order, mapped to their metadata. -/
theorem getOfficeSampleMetadata_eq (samples : List SampleConfig) :
    getOfficeSampleMetadata samples =
      (samples.filter isWXPSample).map officeSampleToMetadata := by
  rw [getOfficeSampleMetadata, sampleFold_eq]
  simp

/-- C2: for every corpus and query, `search` returns at most `maxResults`
entries, every returned entry has a strictly positive score, and every
returned entry overlaps the query in at least one term (documents with zero
overlapping query terms are excluded). -/
theorem bm25_search_bounded_and_positive {α : Type} (docs : List (DocumentWithmetadata α))
    (q : List String) (k : ℕ) :
    ((BM25.mk docs).search q k).length ≤ k ∧
      ∀ bd ∈ (BM25.mk docs).search q k,
        0 < bd.score ∧ ∃ t ∈ q, 0 < (docTerms bd.document).count t := by
  constructor
  · exact List.length_take_le k _
  · intro bd hbd
    have hpos := mem_positiveScored _ _ bd (mem_search _ _ _ bd hbd)
    refine ⟨hpos.2, ?_⟩
    by_contra hno
    push_neg at hno
    have hzero : ∀ t ∈ q, (docTerms bd.document).count t = 0 := fun t ht =>
      Nat.le_zero.mp (hno t ht)
    have hs := scoredDocs_score _ q bd hpos.1
    rw [hs, scoreOf_eq_zero _ q _ hzero] at hpos
    exact lt_irrefl 0 hpos.2

/-- C3: the search result is sorted descending by score, and the sort is
stable: for every score value `c`, the results scoring `c` form an initial
segment of the positively scored documents scoring `c` taken in corpus
insertion order, so equal scores keep the original corpus order. -/
theorem bm25_search_sorted_and_stable {α : Type} (docs : List (DocumentWithmetadata α))
    (q : List String) (k : ℕ) :
    List.Sorted BMDocument.scoreGe ((BM25.mk docs).search q k) ∧
      ∀ c : ℚ, ∃ rest,
        ((BM25.mk docs).positiveScored q).filter (fun bd => decide (bd.score = c)) =
          ((BM25.mk docs).search q k).filter (fun bd => decide (bd.score = c)) ++ rest := by
  constructor
  · exact List.Pairwise.sublist (List.take_sublist _ _)
      (List.sorted_insertionSort BMDocument.scoreGe _)
  · intro c
    refine ⟨((List.insertionSort BMDocument.scoreGe
      ((BM25.mk docs).positiveScored q)).drop k).filter (fun bd => decide (bd.score = c)), ?_⟩
    rw [BM25.search, filter_take_append, filter_score_insertionSort]

/-- C4: constructing the engine over the empty corpus is well-defined and
every search on it returns the empty list; searching any engine with the
empty query term sequence also returns the empty list.  Both are ordinary
total computations of the embedding, not error cases. -/
theorem bm25_empty_corpus_and_empty_query {α : Type} :
    (∀ (q : List String) (k : ℕ),
        (BM25.mk ([] : List (DocumentWithmetadata α))).search q k = []) ∧
      ∀ (docs : List (DocumentWithmetadata α)) (k : ℕ), (BM25.mk docs).search [] k = [] := by
  constructor
  · intro q k
    simp [BM25.search, BM25.positiveScored, BM25.scoredDocs]
  · intro docs k
    have hnil : (BM25.mk docs).positiveScored [] = [] := by
      apply List.filter_eq_nil_iff.mpr
      intro bd hbd
      have hs := scoredDocs_score (BM25.mk docs) [] bd hbd
      have hz : (BM25.mk docs).scoreOf [] bd.document = 0 :=
        scoreOf_eq_zero _ _ _ (fun t ht => absurd ht (List.not_mem_nil t))
      simp [hs, hz]
    simp [BM25.search, hnil]

/-- C7: the search operation is a pure function of the engine state (its
corpus) and its inputs: engines built over equal corpora searched with equal
query term sequences and equal result bounds return identical result lists.
Totality (search never fails) is inherent: `BM25.search` is a total
function of the embedding. -/
theorem bm25_search_deterministic {α : Type} (e₁ e₂ : BM25 α) (q₁ q₂ : List String)
    (k₁ k₂ : ℕ) (hdocs : e₁.documents = e₂.documents) (hq : q₁ = q₂) (hk : k₁ = k₂) :
    e₁.search q₁ k₁ = e₂.search q₂ k₂ := by
  cases e₁
  cases e₂
  cases hdocs
  cases hq
  cases hk
  rfl

/-- C1 (amended): `matchOfficeProjectByBM25` returns a project's metadata if
and only if the BM25 search (invoked with `maxResults = 3`) returns exactly
one result and that single result scores above 1; in every other case it
returns `undefined`. -/
theorem matchOfficeProjectByBM25_accepts_iff (templates : List TemplateConfig)
    (samples : List SampleConfig) (prompt : String) (m : ProjectMetadata) :
    matchOfficeProjectByBM25 templates samples prompt = some m ↔
      ∃ bd, (officeBM25 templates samples).search (officeQuery prompt) 3 = [bd] ∧
        1 < bd.score ∧ bd.document.metadata = m := by
  unfold matchOfficeProjectByBM25
  cases h : (officeBM25 templates samples).search (officeQuery prompt) 3 with
  | nil => simp [h]
  | cons bd rest =>
    cases rest with
    | nil =>
      by_cases h1 : 1 < bd.score
      · simp only [h, if_pos h1]
        constructor
        · rintro ⟨rfl⟩
          exact ⟨bd, rfl, h1, rfl⟩
        · rintro ⟨bd2, heq, _, rfl⟩
          cases heq
          rfl
      · simp only [h, if_neg h1]
        constructor
        · rintro ⟨⟩
        · rintro ⟨bd2, heq, h2, rfl⟩
          cases heq
          exact absurd h2 h1
    | cons bd2 rest2 =>
      simp only [h]
      constructor
      · rintro ⟨⟩
      · rintro ⟨bd3, heq, _, _⟩
        cases heq

/-- C1 counterexample: with a two-template catalog and the prompt `excel`,
the BM25 search (with `maxResults = 3`) returns two results of which exactly
one scores above 1, yet `matchOfficeProjectByBM25` returns `undefined` —
refuting the claim that a single result above the threshold among the
returned matches suffices for acceptance. -/
theorem matchOfficeProjectByBM25_claim_counterexample :
    (((officeBM25 [cexTemplateA, cexTemplateB] []).search (officeQuery "excel") 3).countP
        (fun bd => decide (1 < bd.score)) = 1) ∧
      ((officeBM25 [cexTemplateA, cexTemplateB] []).search (officeQuery "excel") 3).length =
        2 ∧
      matchOfficeProjectByBM25 [cexTemplateA, cexTemplateB] [] "excel" = none := by
  with_unfolding_all decide

/-- C1 witness: on a single-template catalog whose sole document scores 4/3
against the prompt `excel`, the amended acceptance condition holds and the
matcher indeed returns that template's metadata. -/
theorem matchOfficeProjectByBM25_accepts_iff_witness :
    matchOfficeProjectByBM25 [cexTemplateA] [] "excel" =
      some (officeTemplateToMetadata cexTemplateA) :=
  (matchOfficeProjectByBM25_accepts_iff [cexTemplateA] [] "excel"
      (officeTemplateToMetadata cexTemplateA)).mpr
    ⟨⟨⟨"excel", officeTemplateToMetadata cexTemplateA⟩, 4 / 3⟩,
      by with_unfolding_all decide, by with_unfolding_all decide, rfl⟩

/-- Helper: projecting the metadata out of documents built over a metadata
list recovers that list. -/
theorem map_metadata_mk {α : Type} (f : α → String) :
    ∀ l : List α,
      (l.map (fun s => (⟨f s, s⟩ : DocumentWithmetadata α))).map (fun d => d.metadata) = l
  | [] => rfl
  | x :: xs => by
    simp only [List.map_cons]
    rw [map_metadata_mk f xs]

/-- C5: the corpus handed to the BM25 engine has exactly one document per
combined-catalog entry — all local template entries followed by the sample
entries passing the Word/Excel/Powerpoint filter, in catalog order — and
each document carries that entry's metadata. -/
theorem officeDocuments_one_per_entry (templates : List TemplateConfig)
    (samples : List SampleConfig) :
    (officeBM25 templates samples).documents = officeDocuments templates samples ∧
      (officeDocuments templates samples).map (fun d => d.metadata) =
        getOfficeTemplateMetadata templates ++ getOfficeSampleMetadata samples ∧
      getOfficeTemplateMetadata templates = templates.map officeTemplateToMetadata ∧
      getOfficeSampleMetadata samples =
        (samples.filter isWXPSample).map officeSampleToMetadata ∧
      (officeDocuments templates samples).length =
        templates.length + (samples.filter isWXPSample).length := by
  refine ⟨rfl, ?_, rfl, getOfficeSampleMetadata_eq samples, ?_⟩
  · rw [officeDocuments, map_metadata_mk]
    rfl
  · simp [officeDocuments, allOfficeProjectMetadata, getOfficeTemplateMetadata,
      getOfficeSampleMetadata_eq samples]

/-- C6: both every document text and the query prompt are fully lower-cased
before being handed to the tokenizer `prepareDiscription`: the strings fed to
the tokenizer contain no upper-case character, each corpus document's text is
the tokenization of the lower-cased entry description, and the query depends
on the prompt only through its lower-casing. -/
theorem office_inputs_lowercased (templates : List TemplateConfig)
    (samples : List SampleConfig) (prompt : String) :
    lowerOk (officeQueryInput prompt) = true ∧
      (∀ m ∈ allOfficeProjectMetadata templates samples,
        lowerOk (officeDocumentInput m) = true) ∧
      officeQuery prompt = officeQuery (toLowerStr prompt) ∧
      ∀ d ∈ officeDocuments templates samples,
        d.documentText =
          String.intercalate " " (prepareDiscription (officeDocumentInput d.metadata)) := by
  refine ⟨lowerOk_toLowerStr prompt, ?_, ?_, ?_⟩
  · intro m _
    exact lowerOk_toLowerStr m.description
  · show prepareDiscription (officeQueryInput prompt) =
      prepareDiscription (officeQueryInput (toLowerStr prompt))
    rw [officeQueryInput, officeQueryInput, toLowerStr_idem]
  · intro d hd
    simp only [officeDocuments, List.mem_map] at hd
    obtain ⟨m, _, rfl⟩ := hd
    rfl

/-- C8: `matchOfficeProject` is total on every response string (the failure
modes of the chat response — absent/empty response, and the invalid-JSON,
missing-`addin` and falsy cases abstracted by `parseAddin` returning `none` —
all yield `undefined`), it returns metadata only when the parsed `addin` id
equals the id of some combined-catalog entry, and when no catalog entry
carries the parsed id it returns `undefined`. -/
theorem matchOfficeProject_total_and_sound (parseAddin : String → Option String)
    (templates : List TemplateConfig) (samples : List SampleConfig) (response : String) :
    (response = "" → matchOfficeProject parseAddin templates samples response = none) ∧
      (parseAddin response = none →
        matchOfficeProject parseAddin templates samples response = none) ∧
      (∀ m, matchOfficeProject parseAddin templates samples response = some m →
        response ≠ "" ∧ parseAddin response = some m.id ∧
          m ∈ allOfficeProjectMetadata templates samples) ∧
      ((∀ m ∈ allOfficeProjectMetadata templates samples,
          matchedProjectId parseAddin response ≠ some m.id) →
        matchOfficeProject parseAddin templates samples response = none) := by
  have hnone : matchedProjectId parseAddin response = none →
      matchOfficeProject parseAddin templates samples response = none := by
    intro hid
    apply List.find?_eq_none.mpr
    intro m _
    simp [hid]
  refine ⟨?_, ?_, ?_, ?_⟩
  · intro hresp
    exact hnone (by simp [matchedProjectId, hresp])
  · intro hparse
    by_cases hresp : response = ""
    · exact hnone (by simp [matchedProjectId, hresp])
    · exact hnone (by simp [matchedProjectId, hresp, hparse])
  · intro m hm
    have hpred := List.find?_some hm
    simp only [decide_eq_true_eq] at hpred
    have hmem := List.mem_of_find?_eq_some hm
    by_cases hresp : response = ""
    · rw [matchedProjectId, if_pos hresp] at hpred
      cases hpred
    · rw [matchedProjectId, if_neg hresp] at hpred
      exact ⟨hresp, hpred, hmem⟩
  · intro hall
    apply List.find?_eq_none.mpr
    intro m hmem
    simp [hall m hmem]

/-- C9: every combined-catalog entry has platform `WXP` and type `template`
or `sample`; template entries always carry a `data` payload whose
capabilities equal the entry id and whose programming language is
`typescript`; sample entries carry no payload and come only from samples
whose types include Word, Excel or Powerpoint. -/
theorem office_metadata_invariants (templates : List TemplateConfig)
    (samples : List SampleConfig) :
    (∀ m ∈ allOfficeProjectMetadata templates samples,
        m.platform = "WXP" ∧ (m.type = "template" ∨ m.type = "sample")) ∧
      (∀ m ∈ getOfficeTemplateMetadata templates,
        m.type = "template" ∧ ∃ d, m.data = some d ∧ d.capabilities = m.id ∧
          d.programmingLanguage = "typescript" ∧ d.agent = "office") ∧
      ∀ m ∈ getOfficeSampleMetadata samples,
        m.type = "sample" ∧ m.data = none ∧
          ∃ sp ∈ samples, isWXPSample sp = true ∧ m = officeSampleToMetadata sp := by
  have htempl : ∀ m ∈ getOfficeTemplateMetadata templates,
      m.type = "template" ∧ ∃ d, m.data = some d ∧ d.capabilities = m.id ∧
        d.programmingLanguage = "typescript" ∧ d.agent = "office" := by
    intro m hm
    simp only [getOfficeTemplateMetadata, List.mem_map] at hm
    obtain ⟨cfg, _, rfl⟩ := hm
    exact ⟨rfl, ⟨cfg.id, cfg.projectType, cfg.addinHost, "office", "typescript"⟩,
      rfl, rfl, rfl, rfl⟩
  have hsamp : ∀ m ∈ getOfficeSampleMetadata samples,
      m.type = "sample" ∧ m.data = none ∧
        ∃ sp ∈ samples, isWXPSample sp = true ∧ m = officeSampleToMetadata sp := by
    intro m hm
    rw [getOfficeSampleMetadata_eq] at hm
    simp only [List.mem_map, List.mem_filter] at hm
    obtain ⟨sp, ⟨hsp, hwxp⟩, rfl⟩ := hm
    exact ⟨rfl, rfl, sp, hsp, hwxp, rfl⟩
  refine ⟨?_, htempl, hsamp⟩
  intro m hm
  rcases List.mem_append.mp hm with h | h
  · obtain ⟨htype, _⟩ := htempl m h
    simp only [getOfficeTemplateMetadata, List.mem_map] at h
    obtain ⟨cfg, _, rfl⟩ := h
    exact ⟨rfl, Or.inl rfl⟩
  · obtain ⟨htype, _⟩ := hsamp m h
    rw [getOfficeSampleMetadata_eq] at h
    simp only [List.mem_map, List.mem_filter] at h
    obtain ⟨sp, _, rfl⟩ := h
    exact ⟨rfl, Or.inr rfl⟩

/-- C10: on a harmful request the handler renders exactly one response-stream
action — the localized harmful-input markdown — performs no project
matching, no chat interaction, renders no file tree and never reaches the
planner, and still returns a result whose metadata carries the Create
command and the telemetry session's request id. -/
theorem officeCreateCommandHandler_harmful (loc : String → String)
    (matched : Option ProjectMetadata) (plannerResult : CopilotChatResult)
    (requestId : String) :
    officeCreateCommandHandler loc true matched plannerResult requestId =
        ⟨[ChatEvent.telemetry "CopilotChatStart",
          ChatEvent.markdown (loc harmfulResponseKey),
          ChatEvent.telemetry "CopilotChat"],
          ⟨⟨OfficeChatCommand.Create, requestId⟩⟩⟩ ∧
      (officeCreateCommandHandler loc true matched plannerResult requestId).events.filter
          isStreamEvent = [ChatEvent.markdown (loc harmfulResponseKey)] ∧
      ChatEvent.matchProject ∉
        (officeCreateCommandHandler loc true matched plannerResult requestId).events ∧
      (∀ model, ChatEvent.copilotInteraction model ∉
        (officeCreateCommandHandler loc true matched plannerResult requestId).events) ∧
      ChatEvent.fileTree ∉
        (officeCreateCommandHandler loc true matched plannerResult requestId).events ∧
      ChatEvent.plannerProcess ∉
        (officeCreateCommandHandler loc true matched plannerResult requestId).events ∧
      (officeCreateCommandHandler loc true matched
        plannerResult requestId).result.metadata.command = OfficeChatCommand.Create ∧
      (officeCreateCommandHandler loc true matched
        plannerResult requestId).result.metadata.requestId = requestId := by
  have hrun : officeCreateCommandHandler loc true matched plannerResult requestId =
      ⟨[ChatEvent.telemetry "CopilotChatStart",
        ChatEvent.markdown (loc harmfulResponseKey),
        ChatEvent.telemetry "CopilotChat"],
        ⟨⟨OfficeChatCommand.Create, requestId⟩⟩⟩ := rfl
  refine ⟨hrun, ?_, ?_, ?_, ?_, ?_, rfl, rfl⟩
  · rw [hrun]
    rfl
  · rw [hrun]
    simp [isStreamEvent]
  · rw [hrun]
    intro model
    simp
  · rw [hrun]
    simp
  · rw [hrun]
    simp

/-- Witness for C2 at a concrete corpus and query: the single search result
has positive score and overlaps the query. -/
theorem bm25_search_bounded_and_positive_witness :
    0 < (⟨⟨"excel", "A"⟩, 4 / 3⟩ : BMDocument String).score ∧
      ∃ t ∈ ["excel"],
        0 < (docTerms (⟨⟨"excel", "A"⟩, 4 / 3⟩ : BMDocument String).document).count t :=
  (bm25_search_bounded_and_positive [⟨"excel", "A"⟩] ["excel"] 3).2
    ⟨⟨"excel", "A"⟩, 4 / 3⟩ (by with_unfolding_all decide)

/-- Witness for C7 at a concrete engine, query and bound. -/
theorem bm25_search_deterministic_witness :
    (BM25.mk [(⟨"excel", "A"⟩ : DocumentWithmetadata String)]).search ["excel"] 1 =
      (BM25.mk [(⟨"excel", "A"⟩ : DocumentWithmetadata String)]).search ["excel"] 1 :=
  bm25_search_deterministic _ _ _ _ _ _ rfl rfl rfl

/-- Witness for C6 at a concrete catalog entry: the description string handed
to the tokenizer is fully lower-cased. -/
theorem office_inputs_lowercased_witness :
    lowerOk (officeDocumentInput (officeTemplateToMetadata cexTemplateA)) = true :=
  (office_inputs_lowercased [cexTemplateA] [] "Excel").2.1
    (officeTemplateToMetadata cexTemplateA) (by decide)

/-- Witness for C8 at a concrete parse oracle and catalog: a successful match
comes with a nonempty response, the parsed id, and catalog membership. -/
theorem matchOfficeProject_total_and_sound_witness :
    "x" ≠ "" ∧
      (fun _ : String => some "excel-hello") "x" =
        some (officeTemplateToMetadata cexTemplateA).id ∧
      officeTemplateToMetadata cexTemplateA ∈ allOfficeProjectMetadata [cexTemplateA] [] :=
  (matchOfficeProject_total_and_sound (fun _ => some "excel-hello") [cexTemplateA] [] "x").2.2.1
    (officeTemplateToMetadata cexTemplateA) (by decide)

/-- Witness for C9 at a concrete template entry. -/
theorem office_metadata_invariants_witness :
    (officeTemplateToMetadata cexTemplateA).type = "template" ∧
      ∃ d, (officeTemplateToMetadata cexTemplateA).data = some d ∧
        d.capabilities = (officeTemplateToMetadata cexTemplateA).id ∧
        d.programmingLanguage = "typescript" ∧ d.agent = "office" :=
  (office_metadata_invariants [cexTemplateA] [witSample]).2.1
    (officeTemplateToMetadata cexTemplateA) (by decide)

/-- Witness for C10 at a concrete localization table and request id. -/
theorem officeCreateCommandHandler_harmful_witness :
    ChatEvent.fileTree ∉
      (officeCreateCommandHandler (fun s => s) true none
        ⟨⟨OfficeChatCommand.Create, "r"⟩⟩ "r").events :=
  (officeCreateCommandHandler_harmful (fun s => s) none
    ⟨⟨OfficeChatCommand.Create, "r"⟩⟩ "r").2.2.2.2.1
